import Mathlib

/-!
Verification of the expedition-value repository (Go).

Shallow embedding conventions:
* Go `int64` / `int` amounts are modelled as `Int` (the spec and claims treat
  amounts as exact integers; overflow is not in scope of any claim).
* Go `time.Time` is modelled as `Int` (nanoseconds since the zero time); the
  zero value of `time.Time` is `0`, `t.IsZero()` is `t = 0`, and
  `time.Since(t)` at the current instant `now` is `now - t`.  Methods that
  call `time.Now()` take `now : Int` as an explicit parameter.
* Go maps (`map[string]V`) are modelled as association lists
  `List (String × V)` with unique keys; `m[k] = v` is `mapInsert`,
  `delete(m, k)` is `mapErase`, lookup is `mapLookup`, and `range` iteration
  is iteration over the list.
* Methods on pointer receivers that mutate the receiver and return `error`
  are modelled as state-passing functions returning `Option String × State`:
  the `Option String` is the returned error (`none` = `nil`), the second
  component is the receiver after the call.  A Go `return err` before any
  field write translates to `(some msg, unchangedState)`.
* Go `float64` fields are carried as `Float`; no claim computes with them.
-/

namespace ExpeditionValue

/-! ## Association-list model of Go maps -/

/-- Lookup in a Go map modelled as an association list: `v, ok := m[k]`. -/
def mapLookup {α : Type} (k : String) : List (String × α) → Option α
  | [] => none
  | (k', v) :: rest => if k' = k then some v else mapLookup k rest

/-- Go map assignment `m[k] = v`: replace the binding if the key is present,
otherwise add it. -/
def mapInsert {α : Type} (k : String) (v : α) : List (String × α) → List (String × α)
  | [] => [(k, v)]
  | (k', v') :: rest => if k' = k then (k, v) :: rest else (k', v') :: mapInsert k v rest

/-- Go `delete(m, k)`: remove every binding of `k` (a Go map holds at most
one, so on well-formed states this is exactly the deletion of that key). -/
def mapErase {α : Type} (k : String) (m : List (String × α)) : List (String × α) :=
  m.filter (fun kv => kv.1 ≠ k)

/-- The keys of a map state, in iteration order. -/
def mapKeys {α : Type} (m : List (String × α)) : List String :=
  m.map Prod.fst

/-- The values of a map state, in iteration order (`for _, v := range m`). -/
def mapValues {α : Type} (m : List (String × α)) : List α :=
  m.map Prod.snd

/-! ## pkg/domain/portfolio: Money, Position, RiskProfile, Portfolio -/

/-- `Money` value object (money.go): amount in the smallest currency unit
(`int64`, modelled as `Int`) plus a currency code. -/
structure Money where
  Amount : Int
  Currency : String
deriving DecidableEq, Repr

/-- `Money.Add` (money.go): error on currency mismatch, else exact sum. -/
def Money.Add (m other : Money) : Except String Money :=
  if m.Currency ≠ other.Currency then .error "currency mismatch"
  else .ok { Amount := m.Amount + other.Amount, Currency := m.Currency }

/-- `Money.Subtract` (money.go): error on currency mismatch, else exact
difference. -/
def Money.Subtract (m other : Money) : Except String Money :=
  if m.Currency ≠ other.Currency then .error "currency mismatch"
  else .ok { Amount := m.Amount - other.Amount, Currency := m.Currency }

/-- `Money.IsZero` (money.go). -/
def Money.IsZero (m : Money) : Bool := m.Amount == 0

/-- `Money.IsPositive` (money.go). -/
def Money.IsPositive (m : Money) : Bool := m.Amount > 0

/-- `Money.IsNegative` (money.go). -/
def Money.IsNegative (m : Money) : Bool := m.Amount < 0

/-- `Position` value object (position.go). -/
structure Position where
  CompanyTicker : String
  Shares : Int
  PurchasePrice : Money
deriving DecidableEq, Repr

/-- `RiskProfile` enum (risk_profile.go). -/
inductive RiskProfile where
  | UndefinedProfile
  | Conservative
  | Moderate
  | Aggressive
deriving DecidableEq, Repr

/-- `Portfolio` aggregate root (portfolio.go).  `Holdings` is
`map[string]Position` keyed by company ticker. -/
structure Portfolio where
  ID : String
  Holdings : List (String × Position)
  CashBalance : Money
  RiskProfile : RiskProfile
  LastRebalanceTime : Int
  UpdatedAt : Int
deriving DecidableEq, Repr

/-- `Portfolio.ValidateCashBalance` (portfolio.go): the cash balance is not
negative. -/
def Portfolio.ValidateCashBalance (p : Portfolio) : Bool :=
  p.CashBalance.Amount ≥ 0

/-- `Portfolio.CheckRebalanceTrigger` (portfolio.go): true when never
rebalanced (zero time) or when more than 3·30·24 hours have elapsed since
the last rebalance.  `time.Hour` is 3600·10⁹ ns. -/
def Portfolio.CheckRebalanceTrigger (now : Int) (p : Portfolio) : Bool :=
  if p.LastRebalanceTime = 0 then
    true
  else
    now - p.LastRebalanceTime > 3 * 30 * 24 * (3600 * 1000000000)

/-- `Portfolio.AddPosition` (portfolio.go): errors when the cash-balance
invariant fails or the current balance is below the cost; otherwise debits
the cost, stores the position under its ticker and stamps `UpdatedAt`. -/
def Portfolio.AddPosition (now : Int) (p : Portfolio) (position : Position)
    (cost : Money) : Option String × Portfolio :=
  if ¬ p.ValidateCashBalance ∨ p.CashBalance.Amount < cost.Amount then
    (some "insufficient cash balance to add position", p)
  else
    (none,
      { p with
        CashBalance := { p.CashBalance with Amount := p.CashBalance.Amount - cost.Amount }
        Holdings := mapInsert position.CompanyTicker position p.Holdings
        UpdatedAt := now })

/-- `Portfolio.RemovePosition` (portfolio.go): unconditionally credits the
proceeds to the cash balance and stamps `UpdatedAt`; holdings untouched,
never an error. -/
def Portfolio.RemovePosition (now : Int) (p : Portfolio) (_ticker : String)
    (_sharesToRemove : Int) (proceeds : Money) : Option String × Portfolio :=
  (none,
    { p with
      CashBalance := { p.CashBalance with Amount := p.CashBalance.Amount + proceeds.Amount }
      UpdatedAt := now })

/-- A call to one of the two public mutating methods of `Portfolio`. -/
inductive POp where
  | add (position : Position) (cost : Money)
  | remove (ticker : String) (sharesToRemove : Int) (proceeds : Money)
deriving DecidableEq, Repr

/-- The state of the portfolio after one public method call made at instant
`now` (the returned error, if any, is discarded; the receiver remains). -/
def applyOp (now : Int) (p : Portfolio) : POp → Portfolio
  | .add position cost => (p.AddPosition now position cost).2
  | .remove ticker shares proceeds => (p.RemovePosition now ticker shares proceeds).2

/-- The state after a sequence of public method calls, each paired with the
instant at which it is made. -/
def runOps (p : Portfolio) (ops : List (Int × POp)) : Portfolio :=
  ops.foldl (fun q nop => applyOp nop.1 q nop.2) p

/-! ## pkg/domain/company: FinancialMetrics, Sector, Company -/

/-- `Sector` (sector.go) is a Go `int` enum; modelled as `Int`. -/
abbrev Sector := Int

/-- The `Sector` constants, in `iota` order. -/
def UndefinedSector : Sector := 0
def Technology : Sector := 1
def Healthcare : Sector := 2
def Financials : Sector := 3

/-- `FinancialMetrics` value object (financial_metrics.go).
`MetricsUpdatedAt` is the `time.Time` of the last metrics update. -/
structure FinancialMetrics where
  peRatio : Float
  pbRatio : Float
  debtToEquity : Float
  MetricsUpdatedAt : Int

/-- `Company` aggregate root (company.go). -/
structure Company where
  Ticker : String
  FinancialMetrics : FinancialMetrics
  CurrentScore : Float
  Sector : Sector
  UpdatedAt : Int

/-- `Company.CheckMetricsAge` (company.go): false on a zero metrics
timestamp, otherwise true exactly when the metrics are strictly younger
than 7·24 hours. -/
def Company.CheckMetricsAge (now : Int) (c : Company) : Bool :=
  if c.FinancialMetrics.MetricsUpdatedAt = 0 then
    false
  else
    now - c.FinancialMetrics.MetricsUpdatedAt < 7 * 24 * (3600 * 1000000000)

/-! ## Repositories (in-memory implementations)

`InMemoryCompanyRepository` lives in
pkg/infrastructure/persistence/memory/company_repository.go;
`InMemoryPortfolioRepository` lives in the handlers test file.  Both hold a
Go map behind a mutex; the map is the state.  The `nil`-aggregate guard of
`Save` has no counterpart here because a Lean value cannot be `nil`. -/

/-- The distinguishable error values returned by the repositories. -/
inductive RepoError where
  /-- `errors.New` argument validation failures (empty key, and so on). -/
  | invalidInput (msg : String)
  /-- `ErrCompanyNotFound`. -/
  | companyNotFound
  /-- `Delete`: `fmt.Errorf("... not found for deletion: %w", ErrCompanyNotFound)`. -/
  | companyNotFoundForDeletion (ticker : String)
  /-- `ErrPortfolioNotFound`. -/
  | portfolioNotFound
  /-- `Delete`: `fmt.Errorf("... not found for deletion: %w", ErrPortfolioNotFound)`. -/
  | portfolioNotFoundForDeletion (id : String)
  /-- `SearchBySector` with a nil company repository. -/
  | companyRepoUnavailable
deriving DecidableEq

/-- The map state of an `InMemoryCompanyRepository`, keyed by ticker. -/
abbrev CompanyRepo := List (String × Company)

/-- `InMemoryCompanyRepository.Save`: rejects an empty ticker, else stores
the company under its ticker. -/
def companyRepoSave (r : CompanyRepo) (c : Company) : Except RepoError CompanyRepo :=
  if c.Ticker = "" then .error (.invalidInput "company ticker cannot be empty")
  else .ok (mapInsert c.Ticker c r)

/-- `InMemoryCompanyRepository.FindByTicker`. -/
def companyRepoFindByTicker (r : CompanyRepo) (ticker : String) : Except RepoError Company :=
  if ticker = "" then .error (.invalidInput "ticker cannot be empty")
  else
    match mapLookup ticker r with
    | some c => .ok c
    | none => .error .companyNotFound

/-- `InMemoryCompanyRepository.Delete`. -/
def companyRepoDelete (r : CompanyRepo) (ticker : String) : Except RepoError CompanyRepo :=
  if ticker = "" then .error (.invalidInput "ticker cannot be empty")
  else
    match mapLookup ticker r with
    | some _ => .ok (mapErase ticker r)
    | none => .error (.companyNotFoundForDeletion ticker)

/-- The map state of an `InMemoryPortfolioRepository`, keyed by portfolio ID. -/
abbrev PortfolioRepo := List (String × Portfolio)

/-- `InMemoryPortfolioRepository.Save`: rejects an empty ID, else stores the
portfolio under its ID. -/
def portfolioRepoSave (r : PortfolioRepo) (p : Portfolio) : Except RepoError PortfolioRepo :=
  if p.ID = "" then .error (.invalidInput "portfolio ID cannot be empty")
  else .ok (mapInsert p.ID p r)

/-- `InMemoryPortfolioRepository.FindByID`. -/
def portfolioRepoFindByID (r : PortfolioRepo) (id : String) : Except RepoError Portfolio :=
  if id = "" then .error (.invalidInput "portfolio ID cannot be empty")
  else
    match mapLookup id r with
    | some p => .ok p
    | none => .error .portfolioNotFound

/-- `InMemoryPortfolioRepository.Delete`. -/
def portfolioRepoDelete (r : PortfolioRepo) (id : String) : Except RepoError PortfolioRepo :=
  if id = "" then .error (.invalidInput "portfolio ID cannot be empty")
  else
    match mapLookup id r with
    | some _ => .ok (mapErase id r)
    | none => .error (.portfolioNotFoundForDeletion id)

/-- The `CompanyRepository` interface dependency of
`InMemoryPortfolioRepository`: only `FindByTicker` is used by
`SearchBySector`.  `none` models a nil `companyRepo` field. -/
abbrev CompanyFinder := String → Except RepoError Company

/-- The inner loop of `SearchBySector` over one portfolio's holdings:
skip a holding whose company lookup fails; stop (`break`) at the first
holding whose company is in the requested sector. -/
def holdingsMatchSector (find : CompanyFinder) (sector : Sector) :
    List (String × Position) → Bool
  | [] => false
  | (_, holding) :: rest =>
    match find holding.CompanyTicker with
    | .error _ => holdingsMatchSector find sector rest
    | .ok comp =>
      if comp.Sector = sector then true
      else holdingsMatchSector find sector rest

/-- The outer loop of `SearchBySector` over the portfolios map, carrying the
`seenPortfolios` set (as the list of IDs already appended). -/
def searchBySectorLoop (find : CompanyFinder) (sector : Sector) :
    List (String × Portfolio) → List String → List Portfolio
  | [], _ => []
  | (_, p) :: rest, seen =>
    if p.ID ∈ seen then
      searchBySectorLoop find sector rest seen
    else if holdingsMatchSector find sector p.Holdings then
      p :: searchBySectorLoop find sector rest (p.ID :: seen)
    else
      searchBySectorLoop find sector rest seen

/-- `InMemoryPortfolioRepository.SearchBySector`: fails only when the
company repository is nil; a failed company lookup inside the loop is
swallowed (logged and skipped), never surfaced. -/
def searchBySector (r : PortfolioRepo) (companyRepo : Option CompanyFinder)
    (sector : Sector) : Except RepoError (List Portfolio) :=
  match companyRepo with
  | none => .error .companyRepoUnavailable
  | some find => .ok (searchBySectorLoop find sector r [])

/-- Well-formedness of a repository map state: unique keys, and each stored
portfolio sits under its own ID (what `Save` maintains). -/
def portfolioRepoWF (r : PortfolioRepo) : Prop :=
  (mapKeys r).Nodup ∧ ∀ kp ∈ r, (kp.2 : Portfolio).ID = kp.1

/-! ## pkg/application/portfolio_service.go -/

/-- `RebalanceRecommendation` DTO (portfolio_service.go). -/
structure RebalanceRecommendation where
  PortfolioID : String
  Suggestions : List String
  GeneratedAt : Int

/-- `PortfolioService.GetPortfolioDetails`: empty-ID guard, then
`FindByID`.  (`fmt.Errorf` wrapping of the lookup error is modelled by
passing the error through; the `p == nil` branch is unreachable for a map
that stores values.) -/
def getPortfolioDetails (repo : PortfolioRepo) (portfolioID : String) :
    Except RepoError Portfolio :=
  if portfolioID = "" then .error (.invalidInput "portfolioID cannot be empty")
  else portfolioRepoFindByID repo portfolioID

/-- `PortfolioService.ExecuteRebalance`: ID guards, load the portfolio,
stamp `LastRebalanceTime`/`UpdatedAt`, save.  The repository state is
threaded explicitly; an error return leaves it as it was at that point. -/
def executeRebalance (now : Int) (repo : PortfolioRepo) (portfolioID : String)
    (recommendation : RebalanceRecommendation) : Option String × PortfolioRepo :=
  if portfolioID = "" then
    (some "portfolioID cannot be empty", repo)
  else if recommendation.PortfolioID ≠ portfolioID then
    (some "recommendation portfolioID does not match provided portfolioID", repo)
  else
    match getPortfolioDetails repo portfolioID with
    | .error _ => (some "failed to find portfolio", repo)
    | .ok p =>
      let p2 := { p with LastRebalanceTime := now, UpdatedAt := now }
      match portfolioRepoSave repo p2 with
      | .error _ => (some "failed to save portfolio after executing rebalance", repo)
      | .ok repo2 => (none, repo2)

/-! ## Predicates used by the statements, and concrete sample values -/

/-- The proceeds argument of a `remove` call is non-negative (vacuously true
for `add`). -/
def opProceedsNonneg : POp → Bool
  | .add _ _ => true
  | .remove _ _ proceeds => proceeds.Amount ≥ 0

/-- Dollars helper for sample values. -/
def usd (a : Int) : Money := { Amount := a, Currency := "USD" }

/-- A sample position. -/
def posAAPL : Position := { CompanyTicker := "AAPL", Shares := 10, PurchasePrice := usd 5 }

/-- A sample portfolio with 100 cents of cash and no holdings. -/
def p0 : Portfolio :=
  { ID := "pf1", Holdings := [], CashBalance := usd 100,
    RiskProfile := .Moderate, LastRebalanceTime := 0, UpdatedAt := 0 }

/-- A sample portfolio with zero cash. -/
def pZero : Portfolio := { p0 with CashBalance := usd 0 }

/-- A sample portfolio whose cash is already negative (reachable only by a
direct field write, as the spec notes). -/
def pNeg : Portfolio := { p0 with CashBalance := usd (-5) }

/-- A sample company in the Technology sector. -/
def c0 : Company :=
  { Ticker := "AAPL",
    FinancialMetrics :=
      { peRatio := 0, pbRatio := 0, debtToEquity := 0, MetricsUpdatedAt := 0 },
    CurrentScore := 0, Sector := Technology, UpdatedAt := 0 }

/-- A sample portfolio holding `posAAPL`. -/
def pHold : Portfolio := { p0 with ID := "pf2", Holdings := [("AAPL", posAAPL)] }

/-- A sample portfolio-repository state. -/
def repoW : PortfolioRepo := [("pf2", pHold)]

/-- A sample company finder backed by a one-company repository. -/
def findW : CompanyFinder := companyRepoFindByTicker [("AAPL", c0)]

/-- A sample rebalance recommendation addressed to a different portfolio. -/
def recW : RebalanceRecommendation :=
  { PortfolioID := "other", Suggestions := [], GeneratedAt := 0 }

/-- A sample operation sequence: one purchase, one sale with non-negative
proceeds. -/
def opsW : List (Int × POp) :=
  [(1, .add posAAPL (usd 50)), (2, .remove "AAPL" 10 (usd 30))]

/-! ## Lemmas about the map model -/

theorem mapLookup_mapInsert_self {α : Type} (k : String) (v : α)
    (m : List (String × α)) : mapLookup k (mapInsert k v m) = some v := by
  induction m with
  | nil => simp [mapInsert, mapLookup]
  | cons kv rest ih =>
    obtain ⟨k', v'⟩ := kv
    by_cases h : k' = k <;> simp [mapInsert, mapLookup, h, ih]

theorem mapLookup_mapInsert_ne {α : Type} {t k : String} (h : t ≠ k) (v : α)
    (m : List (String × α)) : mapLookup t (mapInsert k v m) = mapLookup t m := by
  have h' : ¬ k = t := fun e => h e.symm
  induction m with
  | nil => simp [mapInsert, mapLookup, h']
  | cons kv rest ih =>
    obtain ⟨k', v'⟩ := kv
    by_cases hk : k' = k
    · subst hk
      simp [mapInsert, mapLookup, h']
    · by_cases ht : k' = t
      · subst ht
        simp [mapInsert, mapLookup, hk, h']
      · simp [mapInsert, mapLookup, hk, ht, ih]

theorem mapLookup_mapErase_self {α : Type} (k : String) (m : List (String × α)) :
    mapLookup k (mapErase k m) = none := by
  induction m with
  | nil => rfl
  | cons kv rest ih =>
    obtain ⟨k', v'⟩ := kv
    by_cases h : k' = k <;> simp [mapErase, List.filter_cons, h, mapLookup, ih] <;>
      simpa [mapErase] using ih

/-- The cash-balance invariant check, read back as an inequality. -/
theorem validateCashBalance_iff (p : Portfolio) :
    p.ValidateCashBalance = true ↔ 0 ≤ p.CashBalance.Amount := by
  simp [Portfolio.ValidateCashBalance]

/-- The guard of `AddPosition`, read back as inequalities on the amounts. -/
theorem addPosition_guard_iff (p : Portfolio) (cost : Money) :
    (¬ p.ValidateCashBalance ∨ p.CashBalance.Amount < cost.Amount) ↔
      (p.CashBalance.Amount < 0 ∨ p.CashBalance.Amount < cost.Amount) := by
  simp [Portfolio.ValidateCashBalance, Int.not_le]

/-- `AddPosition` on the error branch: the guard holds and nothing changes. -/
theorem addPosition_eq_error (now : Int) (p : Portfolio) (position : Position)
    (cost : Money) (hc : p.CashBalance.Amount < 0 ∨ p.CashBalance.Amount < cost.Amount) :
    p.AddPosition now position cost
      = (some "insufficient cash balance to add position", p) := by
  simp only [Portfolio.AddPosition]
  rw [if_pos ((addPosition_guard_iff p cost).mpr hc)]

/-- `AddPosition` on the success branch: debit, store, stamp. -/
theorem addPosition_eq_success (now : Int) (p : Portfolio) (position : Position)
    (cost : Money)
    (hc : ¬ (p.CashBalance.Amount < 0 ∨ p.CashBalance.Amount < cost.Amount)) :
    p.AddPosition now position cost =
      (none,
        { p with
          CashBalance := { p.CashBalance with Amount := p.CashBalance.Amount - cost.Amount }
          Holdings := mapInsert position.CompanyTicker position p.Holdings
          UpdatedAt := now }) := by
  simp only [Portfolio.AddPosition]
  rw [if_neg (fun hx => hc ((addPosition_guard_iff p cost).mp hx))]

/-- C5: for same-currency operands, `Money.Add` and `Money.Subtract`
return the exact sum / difference of the amounts with the common currency
and no error; for distinct currencies both always return the
currency-mismatch error.  (Operand immutability is by construction: the
embedding's `Money` operations are pure functions on values.) -/
theorem money_add_subtract_spec (a b : Money) :
    (a.Currency = b.Currency →
      a.Add b = .ok { Amount := a.Amount + b.Amount, Currency := a.Currency } ∧
      a.Subtract b = .ok { Amount := a.Amount - b.Amount, Currency := a.Currency }) ∧
    (a.Currency ≠ b.Currency →
      a.Add b = .error "currency mismatch" ∧
      a.Subtract b = .error "currency mismatch") := by
  constructor <;> intro h <;> constructor <;> simp [Money.Add, Money.Subtract, h]

/-- Witness for C5 at concrete inputs: 2 + 3 cents USD, and a USD/EUR
mismatch. -/
theorem money_add_subtract_spec_witness :
    ((usd 2).Add (usd 3) = .ok { Amount := 5, Currency := "USD" } ∧
     (usd 2).Subtract (usd 3) = .ok { Amount := -1, Currency := "USD" }) ∧
    (Money.Add { Amount := 1, Currency := "USD" } { Amount := 1, Currency := "EUR" }
        = .error "currency mismatch" ∧
     Money.Subtract { Amount := 1, Currency := "USD" } { Amount := 1, Currency := "EUR" }
        = .error "currency mismatch") :=
  ⟨(money_add_subtract_spec (usd 2) (usd 3)).1 rfl,
   (money_add_subtract_spec { Amount := 1, Currency := "USD" }
      { Amount := 1, Currency := "EUR" }).2 (by decide)⟩

/-- C8: `CheckMetricsAge` is true exactly when the metrics timestamp is
non-zero and the metrics are strictly younger than 7 days (7·24 hours); in
particular a zero timestamp and an age of exactly 7 days or more give
false. -/
theorem checkMetricsAge_spec (now : Int) (c : Company) :
    c.CheckMetricsAge now = true ↔
      (c.FinancialMetrics.MetricsUpdatedAt ≠ 0 ∧
       now - c.FinancialMetrics.MetricsUpdatedAt < 7 * 24 * (3600 * 1000000000)) := by
  by_cases h : c.FinancialMetrics.MetricsUpdatedAt = 0 <;>
    simp [Company.CheckMetricsAge, h]

/-- C9: `CheckRebalanceTrigger` is true exactly when the portfolio was
never rebalanced (zero `LastRebalanceTime`) or strictly more than 90 days
(3·30·24 hours) have elapsed since the last rebalance. -/
theorem checkRebalanceTrigger_spec (now : Int) (p : Portfolio) :
    p.CheckRebalanceTrigger now = true ↔
      (p.LastRebalanceTime = 0 ∨
       now - p.LastRebalanceTime > 3 * 30 * 24 * (3600 * 1000000000)) := by
  by_cases h : p.LastRebalanceTime = 0 <;>
    simp [Portfolio.CheckRebalanceTrigger, h]

/-- C4: `RemovePosition` never fails, credits exactly the proceeds amount to
the cash balance, stamps `UpdatedAt` with the call instant, and leaves the
holdings map unchanged (no existence check of the ticker, no share-count
check, no holdings mutation). -/
theorem removePosition_spec (now : Int) (p : Portfolio) (ticker : String)
    (sharesToRemove : Int) (proceeds : Money) :
    (p.RemovePosition now ticker sharesToRemove proceeds).1 = none ∧
    ((p.RemovePosition now ticker sharesToRemove proceeds).2).CashBalance.Amount
      = p.CashBalance.Amount + proceeds.Amount ∧
    ((p.RemovePosition now ticker sharesToRemove proceeds).2).UpdatedAt = now ∧
    ((p.RemovePosition now ticker sharesToRemove proceeds).2).Holdings = p.Holdings := by
  refine ⟨rfl, rfl, rfl, rfl⟩

/-- C3: when `AddPosition` succeeds it debits exactly the cost amount (no
currency check), stores the given position under its ticker — replacing
whatever was there — leaves every other holdings key unchanged, and stamps
`UpdatedAt` with the call instant. -/
theorem addPosition_success_spec (now : Int) (p : Portfolio) (position : Position)
    (cost : Money) (h : (p.AddPosition now position cost).1 = none) :
    ((p.AddPosition now position cost).2).CashBalance.Amount
      = p.CashBalance.Amount - cost.Amount ∧
    mapLookup position.CompanyTicker ((p.AddPosition now position cost).2).Holdings
      = some position ∧
    (∀ t, t ≠ position.CompanyTicker →
      mapLookup t ((p.AddPosition now position cost).2).Holdings
        = mapLookup t p.Holdings) ∧
    ((p.AddPosition now position cost).2).UpdatedAt = now := by
  by_cases hc : p.CashBalance.Amount < 0 ∨ p.CashBalance.Amount < cost.Amount
  · rw [addPosition_eq_error now p position cost hc] at h
    cases h
  · rw [addPosition_eq_success now p position cost hc]
    refine ⟨rfl, mapLookup_mapInsert_self _ _ _, ?_, rfl⟩
    intro t ht
    exact mapLookup_mapInsert_ne ht _ _

/-- Witness for C3: buying `posAAPL` for 50 cents out of 100 succeeds and
debits exactly 50. -/
theorem addPosition_success_spec_witness :
    (p0.AddPosition 1 posAAPL (usd 50)).1 = none ∧
    ((p0.AddPosition 1 posAAPL (usd 50)).2).CashBalance.Amount
      = p0.CashBalance.Amount - (usd 50).Amount ∧
    mapLookup posAAPL.CompanyTicker ((p0.AddPosition 1 posAAPL (usd 50)).2).Holdings
      = some posAAPL :=
  ⟨by decide, (addPosition_success_spec 1 p0 posAAPL (usd 50) (by decide)).1,
    (addPosition_success_spec 1 p0 posAAPL (usd 50) (by decide)).2.1⟩

/-- C2 counterexample: with a (directly written) negative balance of −5 and
a cost of −10, `AddPosition` returns the insufficient-cash error although
`cashBalance.Amount < cost.Amount` is false — the error is not returned
*exactly* when the balance is below the cost. -/
theorem addPosition_error_iff_cex :
    (pNeg.AddPosition 1 posAAPL (usd (-10))).1
      = some "insufficient cash balance to add position" ∧
    ¬ pNeg.CashBalance.Amount < (usd (-10)).Amount := by
  refine ⟨rfl, by decide⟩

/-- C2 (amended): `AddPosition` returns the insufficient-cash error exactly
when the current balance is below the cost *or already negative* (the
`ValidateCashBalance` pre-check); and whenever it returns an error, the
portfolio — holdings, cash and `UpdatedAt` — is left unchanged. -/
theorem addPosition_error_iff (now : Int) (p : Portfolio) (position : Position)
    (cost : Money) :
    ((p.AddPosition now position cost).1
        = some "insufficient cash balance to add position" ↔
      (p.CashBalance.Amount < 0 ∨ p.CashBalance.Amount < cost.Amount)) ∧
    (∀ e, (p.AddPosition now position cost).1 = some e →
      (p.AddPosition now position cost).2 = p) := by
  by_cases hc : p.CashBalance.Amount < 0 ∨ p.CashBalance.Amount < cost.Amount
  · rw [addPosition_eq_error now p position cost hc]
    exact ⟨iff_of_true rfl hc, fun e _ => rfl⟩
  · rw [addPosition_eq_success now p position cost hc]
    refine ⟨iff_of_false ?_ hc, fun e he => ?_⟩
    · intro h; cases h
    · cases he

/-- Witness for C2 (amended): at balance −5 and cost −10 the error is
returned, the guard disjunction holds, and the portfolio is unchanged. -/
theorem addPosition_error_iff_witness :
    (pNeg.CashBalance.Amount < 0 ∨ pNeg.CashBalance.Amount < (usd (-10)).Amount) ∧
    (pNeg.AddPosition 1 posAAPL (usd (-10))).2 = pNeg :=
  ⟨(addPosition_error_iff 1 pNeg posAAPL (usd (-10))).1.mp rfl,
   (addPosition_error_iff 1 pNeg posAAPL (usd (-10))).2
     "insufficient cash balance to add position" rfl⟩

/-- C10: `ExecuteRebalance` with an empty portfolio ID or a recommendation
addressed to a different portfolio fails before loading the portfolio, and
the repository state is left unchanged — no `Save`, no portfolio
mutation. -/
theorem executeRebalance_guard (now : Int) (repo : PortfolioRepo)
    (portfolioID : String) (rec : RebalanceRecommendation)
    (h : rec.PortfolioID ≠ portfolioID ∨ portfolioID = "") :
    ((executeRebalance now repo portfolioID rec).1).isSome = true ∧
    (executeRebalance now repo portfolioID rec).2 = repo := by
  by_cases h0 : portfolioID = ""
  · simp [executeRebalance, h0]
  · rcases h with h | h
    · simp [executeRebalance, h0, h]
    · exact absurd h h0

/-- Witness for C10: a recommendation for portfolio "other" against ID
"pf1" errors out and leaves the (empty) repository untouched. -/
theorem executeRebalance_guard_witness :
    (recW.PortfolioID ≠ "pf1" ∨ "pf1" = "") ∧
    ((executeRebalance 5 [] "pf1" recW).1).isSome = true ∧
    (executeRebalance 5 [] "pf1" recW).2 = [] :=
  ⟨Or.inl (by decide), executeRebalance_guard 5 [] "pf1" recW (Or.inl (by decide))⟩

/-- C1 counterexample: starting from a portfolio with zero (non-negative)
cash, one public `RemovePosition` call whose proceeds carry a negative
amount drives the cash balance negative — the public-method surface alone
does not protect the invariant. -/
theorem cash_nonneg_invariant_cex :
    0 ≤ pZero.CashBalance.Amount ∧
    (runOps pZero [(1, POp.remove "AAPL" 0 (usd (-1)))]).CashBalance.Amount < 0 := by
  refine ⟨by decide, by decide⟩

/-- C1 (amended): starting from a non-negative cash balance, no sequence of
`AddPosition` and `RemovePosition` calls in which every `RemovePosition`
receives non-negative proceeds can make the cash balance negative;
`RemovePosition` with a negative proceeds amount can (see the
counterexample). -/
theorem cash_nonneg_preserved (ops : List (Int × POp)) :
    ∀ p : Portfolio, 0 ≤ p.CashBalance.Amount →
      (∀ op ∈ ops, opProceedsNonneg op.2 = true) →
      0 ≤ (runOps p ops).CashBalance.Amount := by
  induction ops with
  | nil => intro p hp _; simpa [runOps] using hp
  | cons nop rest ih =>
    intro p hp hops
    have hstep : 0 ≤ (applyOp nop.1 p nop.2).CashBalance.Amount := by
      cases hop : nop.2 with
      | add position cost =>
        by_cases hc : p.CashBalance.Amount < 0 ∨ p.CashBalance.Amount < cost.Amount
        · simpa [applyOp, addPosition_eq_error nop.1 p position cost hc] using hp
        · push_neg at hc
          simp only [applyOp, addPosition_eq_success nop.1 p position cost
            (by push_neg; exact hc)]
          omega
      | remove ticker shares proceeds =>
        have hpr : (0 : Int) ≤ proceeds.Amount := by
          have := hops nop (List.mem_cons_self _ _)
          rw [hop] at this
          simpa [opProceedsNonneg] using this
        simp only [applyOp, Portfolio.RemovePosition]
        omega
    have hrun : runOps p (nop :: rest) = runOps (applyOp nop.1 p nop.2) rest := rfl
    rw [hrun]
    exact ih _ hstep (fun op hm => hops op (List.mem_cons_of_mem _ hm))

/-- Witness for C1 (amended): from 100 cents, a purchase for 50 followed by
a sale with proceeds 30 keeps the balance non-negative. -/
theorem cash_nonneg_preserved_witness :
    (0 ≤ p0.CashBalance.Amount ∧ ∀ op ∈ opsW, opProceedsNonneg op.2 = true) ∧
    0 ≤ (runOps p0 opsW).CashBalance.Amount :=
  ⟨⟨by decide, by decide⟩, cash_nonneg_preserved opsW p0 (by decide) (by decide)⟩

/-- C6: for both in-memory repositories, a successful `Save` followed by
`FindByTicker`/`FindByID` at the aggregate's key returns exactly the saved
aggregate with no error, and a successful `Delete` followed by the same
lookup fails with the corresponding not-found error. -/
theorem repo_save_find_delete_roundtrip :
    (∀ (r r2 : CompanyRepo) (c : Company), companyRepoSave r c = .ok r2 →
      companyRepoFindByTicker r2 c.Ticker = .ok c) ∧
    (∀ (r r2 : CompanyRepo) (t : String), companyRepoDelete r t = .ok r2 →
      companyRepoFindByTicker r2 t = .error .companyNotFound) ∧
    (∀ (r r2 : PortfolioRepo) (p : Portfolio), portfolioRepoSave r p = .ok r2 →
      portfolioRepoFindByID r2 p.ID = .ok p) ∧
    (∀ (r r2 : PortfolioRepo) (id : String), portfolioRepoDelete r id = .ok r2 →
      portfolioRepoFindByID r2 id = .error .portfolioNotFound) := by
  refine ⟨?_, ?_, ?_, ?_⟩
  · intro r r2 c h
    by_cases ht : c.Ticker = ""
    · simp [companyRepoSave, ht] at h
    · simp only [companyRepoSave, if_neg ht, Except.ok.injEq] at h
      subst h
      simp [companyRepoFindByTicker, ht, mapLookup_mapInsert_self]
  · intro r r2 t h
    by_cases ht : t = ""
    · simp [companyRepoDelete, ht] at h
    · simp only [companyRepoDelete, if_neg ht] at h
      cases hl : mapLookup t r with
      | none => rw [hl] at h; cases h
      | some c =>
        rw [hl] at h
        simp only [Except.ok.injEq] at h
        subst h
        simp [companyRepoFindByTicker, ht, mapLookup_mapErase_self]
  · intro r r2 p h
    by_cases hi : p.ID = ""
    · simp [portfolioRepoSave, hi] at h
    · simp only [portfolioRepoSave, if_neg hi, Except.ok.injEq] at h
      subst h
      simp [portfolioRepoFindByID, hi, mapLookup_mapInsert_self]
  · intro r r2 id h
    by_cases hi : id = ""
    · simp [portfolioRepoDelete, hi] at h
    · simp only [portfolioRepoDelete, if_neg hi] at h
      cases hl : mapLookup id r with
      | none => rw [hl] at h; cases h
      | some p =>
        rw [hl] at h
        simp only [Except.ok.injEq] at h
        subst h
        simp [portfolioRepoFindByID, hi, mapLookup_mapErase_self]

/-- Witness for C6: save / find / delete / find round-trips at concrete
one-element repositories for both aggregates. -/
theorem repo_save_find_delete_roundtrip_witness :
    (companyRepoSave [] c0 = .ok [("AAPL", c0)] ∧
     companyRepoFindByTicker [("AAPL", c0)] c0.Ticker = .ok c0) ∧
    (companyRepoDelete [("AAPL", c0)] "AAPL" = .ok [] ∧
     companyRepoFindByTicker [] "AAPL" = .error .companyNotFound) ∧
    (portfolioRepoSave [] p0 = .ok [("pf1", p0)] ∧
     portfolioRepoFindByID [("pf1", p0)] p0.ID = .ok p0) ∧
    (portfolioRepoDelete [("pf1", p0)] "pf1" = .ok [] ∧
     portfolioRepoFindByID [] "pf1" = .error .portfolioNotFound) :=
  ⟨⟨rfl, repo_save_find_delete_roundtrip.1 [] [("AAPL", c0)] c0 rfl⟩,
   ⟨rfl, repo_save_find_delete_roundtrip.2.1 [("AAPL", c0)] [] "AAPL" rfl⟩,
   ⟨rfl, repo_save_find_delete_roundtrip.2.2.1 [] [("pf1", p0)] p0 rfl⟩,
   ⟨rfl, repo_save_find_delete_roundtrip.2.2.2 [("pf1", p0)] [] "pf1" rfl⟩⟩

/-- The inner `SearchBySector` loop succeeds exactly when some holding's
ticker resolves to a company in the requested sector (failed lookups are
skipped). -/
theorem holdingsMatchSector_eq_true_iff (find : CompanyFinder) (sector : Sector) :
    ∀ hs : List (String × Position),
      holdingsMatchSector find sector hs = true ↔
        ∃ kh ∈ hs, ∃ comp,
          find (kh.2 : Position).CompanyTicker = Except.ok comp ∧
          comp.Sector = sector := by
  intro hs
  induction hs with
  | nil => simp [holdingsMatchSector]
  | cons kh rest ih =>
    obtain ⟨k, holding⟩ := kh
    cases hfind : find holding.CompanyTicker with
    | error e =>
      simp only [holdingsMatchSector, hfind]
      rw [ih]
      constructor
      · rintro ⟨kh2, hmem, comp, hok, hsec⟩
        exact ⟨kh2, List.mem_cons_of_mem _ hmem, comp, hok, hsec⟩
      · rintro ⟨kh2, hmem, comp, hok, hsec⟩
        rcases List.mem_cons.mp hmem with heq | hmem2
        · subst heq
          rw [hfind] at hok
          cases hok
        · exact ⟨kh2, hmem2, comp, hok, hsec⟩
    | ok comp =>
      by_cases hsec : comp.Sector = sector
      · simp only [holdingsMatchSector, hfind, if_pos hsec]
        constructor
        · intro _
          exact ⟨(k, holding), List.mem_cons_self _ _, comp, hfind, hsec⟩
        · intro _
          trivial
      · simp only [holdingsMatchSector, hfind, if_neg hsec]
        rw [ih]
        constructor
        · rintro ⟨kh2, hmem, comp2, hok, hsec2⟩
          exact ⟨kh2, List.mem_cons_of_mem _ hmem, comp2, hok, hsec2⟩
        · rintro ⟨kh2, hmem, comp2, hok, hsec2⟩
          rcases List.mem_cons.mp hmem with heq | hmem2
          · subst heq
            rw [hfind] at hok
            cases hok
            exact absurd hsec2 hsec
          · exact ⟨kh2, hmem2, comp2, hok, hsec2⟩

/-- On a well-formed map state, the seen-set-driven loop of `SearchBySector`
computes exactly a filter of the stored portfolios. -/
theorem searchBySectorLoop_eq_filter (find : CompanyFinder) (sector : Sector) :
    ∀ (l : List (String × Portfolio)) (seen : List String),
      (mapKeys l).Nodup → (∀ kp ∈ l, (kp.2 : Portfolio).ID = kp.1) →
      searchBySectorLoop find sector l seen =
        (mapValues l).filter
          (fun q => !(decide (q.ID ∈ seen)) &&
            holdingsMatchSector find sector q.Holdings) := by
  intro l
  induction l with
  | nil => intro seen _ _; rfl
  | cons kp rest ih =>
    intro seen hnd hid
    obtain ⟨k, p⟩ := kp
    have hpk : p.ID = k := hid (k, p) (List.mem_cons_self _ _)
    have hnd1 : (k :: mapKeys rest).Nodup := hnd
    have hnd0 := List.nodup_cons.mp hnd1
    have hknotin : k ∉ mapKeys rest := hnd0.1
    have hnd' : (mapKeys rest).Nodup := hnd0.2
    have hid' : ∀ kp ∈ rest, (kp.2 : Portfolio).ID = kp.1 :=
      fun kp h => hid kp (List.mem_cons_of_mem _ h)
    have hidne : ∀ q ∈ mapValues rest, q.ID ≠ p.ID := by
      intro q hq heq
      rcases List.mem_map.mp hq with ⟨kq, hkq, hq2⟩
      apply hknotin
      have h1 : q.ID = kq.1 := by rw [← hq2]; exact hid' kq hkq
      have h2 : kq.1 ∈ mapKeys rest := List.mem_map.mpr ⟨kq, hkq, rfl⟩
      have h3 : kq.1 = k := by rw [← h1, heq, hpk]
      rw [← h3]
      exact h2
    by_cases hseen : p.ID ∈ seen
    · simp only [searchBySectorLoop, if_pos hseen]
      rw [ih seen hnd' hid']
      simp only [mapValues, List.map_cons, List.filter_cons]
      have hhead : (!(decide (p.ID ∈ seen)) &&
          holdingsMatchSector find sector p.Holdings) = false := by
        simp [hseen]
      rw [hhead]
      simp [mapValues]
    · by_cases hmatch : holdingsMatchSector find sector p.Holdings = true
      · simp only [searchBySectorLoop, if_neg hseen, if_pos hmatch]
        rw [ih (p.ID :: seen) hnd' hid']
        simp only [mapValues, List.map_cons, List.filter_cons]
        have hhead : (!(decide (p.ID ∈ seen)) &&
            holdingsMatchSector find sector p.Holdings) = true := by
          simp [hseen, hmatch]
        rw [hhead]
        simp only [if_true]
        have htail : (List.map Prod.snd rest).filter
            (fun q => !(decide (q.ID ∈ p.ID :: seen)) &&
              holdingsMatchSector find sector q.Holdings)
            = (List.map Prod.snd rest).filter
            (fun q => !(decide (q.ID ∈ seen)) &&
              holdingsMatchSector find sector q.Holdings) := by
          apply List.filter_congr
          intro q hq
          have hne := hidne q (by simpa [mapValues] using hq)
          simp [List.mem_cons, hne]
        rw [htail]
      · simp only [searchBySectorLoop, if_neg hseen, if_neg hmatch]
        rw [ih seen hnd' hid']
        simp only [mapValues, List.map_cons, List.filter_cons]
        have hm2 : holdingsMatchSector find sector p.Holdings = false :=
          Bool.not_eq_true _ ▸ hmatch
        have hhead : (!(decide (p.ID ∈ seen)) &&
            holdingsMatchSector find sector p.Holdings) = false := by
          simp [hm2]
        rw [hhead]
        simp [mapValues]

/-- On a well-formed repository state the stored portfolios are pairwise
distinct values. -/
theorem mapValues_nodup_of_wf (r : PortfolioRepo) (hwf : portfolioRepoWF r) :
    (mapValues r).Nodup := by
  obtain ⟨hnd, hid⟩ := hwf
  have hr : r.Nodup := List.Nodup.of_map Prod.fst hnd
  refine List.Nodup.map_on ?_ hr
  intro x hx y hy hxy
  have h1 : (x.2 : Portfolio).ID = x.1 := hid x hx
  have h2 : (y.2 : Portfolio).ID = y.1 := hid y hy
  have hfst : x.1 = y.1 := by rw [← h1, ← h2, hxy]
  obtain ⟨x1, x2⟩ := x
  obtain ⟨y1, y2⟩ := y
  cases hfst
  cases hxy
  rfl

/-- C7: with a non-nil company repository, `SearchBySector` never returns
an error, lists each stored portfolio at most once, and includes a stored
portfolio exactly when at least one of its holdings' tickers resolves via
`FindByTicker` to a company of the requested sector; a failed company
lookup is silently skipped and never surfaced. -/
theorem searchBySector_spec (r : PortfolioRepo) (find : CompanyFinder)
    (sector : Sector) (hwf : portfolioRepoWF r) :
    ∃ res, searchBySector r (some find) sector = Except.ok res ∧
      (∀ p, res.count p ≤ 1) ∧
      (∀ p, p ∈ res ↔ p ∈ mapValues r ∧
        ∃ kh ∈ p.Holdings, ∃ comp,
          find (kh.2 : Position).CompanyTicker = Except.ok comp ∧
          comp.Sector = sector) := by
  obtain ⟨hnd, hid⟩ := hwf
  have heq : searchBySectorLoop find sector r [] =
      (mapValues r).filter
        (fun q => !(decide (q.ID ∈ ([] : List String))) &&
          holdingsMatchSector find sector q.Holdings) :=
    searchBySectorLoop_eq_filter find sector r [] hnd hid
  refine ⟨searchBySectorLoop find sector r [], rfl, ?_, ?_⟩
  · intro p
    have hnodup : (searchBySectorLoop find sector r []).Nodup := by
      rw [heq]
      exact (mapValues_nodup_of_wf r ⟨hnd, hid⟩).filter _
    exact List.nodup_iff_count_le_one.mp hnodup p
  · intro p
    rw [heq, List.mem_filter]
    simp [holdingsMatchSector_eq_true_iff]

/-- Witness for C7: a one-portfolio repository whose single holding "AAPL"
resolves to the Technology company `c0`. -/
theorem searchBySector_spec_witness :
    portfolioRepoWF repoW ∧
    (∃ res, searchBySector repoW (some findW) Technology = Except.ok res ∧
      (∀ p, res.count p ≤ 1) ∧
      (∀ p, p ∈ res ↔ p ∈ mapValues repoW ∧
        ∃ kh ∈ p.Holdings, ∃ comp,
          findW (kh.2 : Position).CompanyTicker = Except.ok comp ∧
          comp.Sector = Technology)) :=
  ⟨⟨by decide, by decide⟩,
   searchBySector_spec repoW findW Technology ⟨by decide, by decide⟩⟩

end ExpeditionValue
